import Mathlib

/-!
Verification of the sawtooth-core identity CLI (`src/cli/sawtooth_cli/identity.py`)
against its natural-language specification.

The Python module is shallowly embedded: strings are Lean strings (with the
character list `String.data` used for character-level work), byte strings are
`List Nat` with every byte below 256, SHA-256 (from Python's `hashlib`) is
implemented executably over `Nat` with explicit reduction modulo `2 ^ 32`,
and the genuinely external collaborators (protobuf serialization, secp256k1
signing, SHA-512) are abstract function parameters bundled in `Externals`,
because every claim about them is relational and holds for any choice.
-/

set_option maxRecDepth 100000

namespace Sha256

/-- Modulus for 32-bit words. -/
def w32 : Nat := 2 ^ 32

/-- All-ones 32-bit mask. -/
def mask32 : Nat := w32 - 1

/-- Right rotation of a 32-bit word (input assumed below `2 ^ 32`). -/
def rotr (x n : Nat) : Nat := ((x >>> n) ||| (x <<< (32 - n))) &&& mask32

/-- The `Ch` function of FIPS 180-4. -/
def ch (x y z : Nat) : Nat := (x &&& y) ^^^ ((x ^^^ mask32) &&& z)

/-- The `Maj` function of FIPS 180-4. -/
def maj (x y z : Nat) : Nat := (x &&& y) ^^^ (x &&& z) ^^^ (y &&& z)

/-- Big sigma-0. -/
def bigS0 (x : Nat) : Nat := rotr x 2 ^^^ rotr x 13 ^^^ rotr x 22

/-- Big sigma-1. -/
def bigS1 (x : Nat) : Nat := rotr x 6 ^^^ rotr x 11 ^^^ rotr x 25

/-- Small sigma-0. -/
def smallS0 (x : Nat) : Nat := rotr x 7 ^^^ rotr x 18 ^^^ (x >>> 3)

/-- Small sigma-1. -/
def smallS1 (x : Nat) : Nat := rotr x 17 ^^^ rotr x 19 ^^^ (x >>> 10)

/-- The 64 round constants. -/
def K : List Nat :=
  [1116352408, 1899447441, 3049323471, 3921009573,
   961987163, 1508970993, 2453635748, 2870763221,
   3624381080, 310598401, 607225278, 1426881987,
   1925078388, 2162078206, 2614888103, 3248222580,
   3835390401, 4022224774, 264347078, 604807628,
   770255983, 1249150122, 1555081692, 1996064986,
   2554220882, 2821834349, 2952996808, 3210313671,
   3336571891, 3584528711, 113926993, 338241895,
   666307205, 773529912, 1294757372, 1396182291,
   1695183700, 1986661051, 2177026350, 2456956037,
   2730485921, 2820302411, 3259730800, 3345764771,
   3516065817, 3600352804, 4094571909, 275423344,
   430227734, 506948616, 659060556, 883997877,
   958139571, 1322822218, 1537002063, 1747873779,
   1955562222, 2024104815, 2227730452, 2361852424,
   2428436474, 2756734187, 3204031479, 3329325298]

/-- The eight-word working state. -/
structure Hash8 where
  a : Nat
  b : Nat
  c : Nat
  d : Nat
  e : Nat
  f : Nat
  g : Nat
  h : Nat

/-- Initial hash value. -/
def initH : Hash8 :=
  ⟨1779033703, 3144134277, 1013904242, 2773480762,
   1359893119, 2600822924, 528734635, 1541459225⟩

/-- Merkle–Damgård padding: append `0x80`, zeros to 56 mod 64, then the
bit length as 8 big-endian bytes. -/
def padBytes (msg : List Nat) : List Nat :=
  let len := msg.length
  let zeros := (120 - ((len + 1) % 64)) % 64
  msg ++ [0x80] ++ List.replicate zeros 0 ++
    (List.range 8).map (fun i => ((8 * len) >>> (8 * (7 - i))) % 256)

/-- Split a byte list into 64-byte chunks (fuel-based so that the kernel can
evaluate it; `fuel = l.length` always suffices since each step consumes at
least one element of a non-empty list). -/
def chunksAux : Nat → List Nat → List (List Nat)
  | 0, _ => []
  | fuel + 1, l => if l = [] then [] else l.take 64 :: chunksAux fuel (l.drop 64)

/-- Split a byte list into 64-byte chunks. -/
def chunks64 (l : List Nat) : List (List Nat) := chunksAux l.length l

/-- Big-endian interpretation of a byte list as a word. -/
def bytesToWord (b : List Nat) : Nat := b.foldl (fun acc x => acc * 256 + x) 0

/-- The 16 message words of a 64-byte block. -/
def blockWords (block : List Nat) : List Nat :=
  (List.range 16).map (fun i => bytesToWord ((block.drop (4 * i)).take 4))

/-- Extend the message schedule by `n` further words. -/
def extendLoop : Nat → List Nat → List Nat
  | 0, w => w
  | n + 1, w =>
      let i := w.length
      let wi := (smallS1 (w.getD (i - 2) 0) + w.getD (i - 7) 0 +
                 smallS0 (w.getD (i - 15) 0) + w.getD (i - 16) 0) % w32
      extendLoop n (w ++ [wi])

/-- The full 64-word schedule of a block. -/
def schedule (block : List Nat) : List Nat := extendLoop 48 (blockWords block)

/-- One compression round. -/
def step (st : Hash8) (k : Nat) (w : Nat) : Hash8 :=
  let t1 := (st.h + bigS1 st.e + ch st.e st.f st.g + k + w) % w32
  let t2 := (bigS0 st.a + maj st.a st.b st.c) % w32
  ⟨(t1 + t2) % w32, st.a, st.b, st.c, (st.d + t1) % w32, st.e, st.f, st.g⟩

/-- Compress one 64-byte block into the state. -/
def compress (st : Hash8) (block : List Nat) : Hash8 :=
  let e := (K.zip (schedule block)).foldl (fun s p => step s p.1 p.2) st
  ⟨(st.a + e.a) % w32, (st.b + e.b) % w32, (st.c + e.c) % w32,
   (st.d + e.d) % w32, (st.e + e.e) % w32, (st.f + e.f) % w32,
   (st.g + e.g) % w32, (st.h + e.h) % w32⟩

/-- SHA-256 of a byte list, as the final eight-word state. -/
def sha256Words (msg : List Nat) : Hash8 :=
  (chunks64 (padBytes msg)).foldl compress initH

/-- Lower-case hex digit for a value below 16. -/
def hexDigit (n : Nat) : Char :=
  if n < 10 then Char.ofNat (48 + n) else Char.ofNat (87 + n)

/-- The 8 hex characters of a 32-bit word, most significant nibble first. -/
def wordHex (w : Nat) : List Char :=
  (List.range 8).map (fun i => hexDigit ((w >>> (4 * (7 - i))) % 16))

/-- The state as a word list. -/
def hash8Words (st : Hash8) : List Nat :=
  [st.a, st.b, st.c, st.d, st.e, st.f, st.g, st.h]

/-- The 64-character hex digest of a byte list. -/
def digestChars (msg : List Nat) : List Char :=
  ((hash8Words (sha256Words msg)).map wordHex).flatten

/-- UTF-8 encoding of one character (Python's `str.encode()`), as bytes. -/
def utf8Bytes (c : Char) : List Nat :=
  let n := c.toNat
  if n < 0x80 then [n]
  else if n < 0x800 then [0xc0 + n / 0x40, 0x80 + n % 0x40]
  else if n < 0x10000 then
    [0xe0 + n / 0x1000, 0x80 + n / 0x40 % 0x40, 0x80 + n % 0x40]
  else
    [0xf0 + n / 0x40000, 0x80 + n / 0x1000 % 0x40,
     0x80 + n / 0x40 % 0x40, 0x80 + n % 0x40]

/-- UTF-8 bytes of a character list. -/
def strBytes (cs : List Char) : List Nat := (cs.map utf8Bytes).flatten

/-- Hex SHA-256 digest of a character list: `hashlib.sha256(s.encode()).hexdigest()`. -/
def sha256HexChars (cs : List Char) : List Char := digestChars (strBytes cs)

/-- Hex SHA-256 digest of a string. -/
def sha256Hex (s : String) : String := String.mk (sha256HexChars s.data)

/-- The sixteen lower-case hex characters. -/
def hexAlphabet : List Char := "0123456789abcdef".data

end Sha256

namespace SawtoothIdentity

/-- Python's `str.split(sep)` with no split limit, on character lists:
`"".split(sep) = [""]`, and every occurrence of `sep` separates. -/
def splitAll (sep : Char) : List Char → List (List Char)
  | [] => [[]]
  | c :: rest =>
      if c = sep then [] :: splitAll sep rest
      else
        match splitAll sep rest with
        | [] => [[c]]
        | p :: ps => (c :: p) :: ps

/-- Python's `str.split(sep, maxsplit=m)` on character lists: at most `m`
splits are performed, the final part keeps any remaining separators. -/
def pySplit (sep : Char) : Nat → List Char → List (List Char)
  | _, [] => [[]]
  | 0, cs => [cs]
  | m + 1, c :: rest =>
      if c = sep then [] :: pySplit sep m rest
      else
        match pySplit sep (m + 1) rest with
        | [] => [[c]]
        | p :: ps => (c :: p) :: ps

/-- `IDENTITY_NAMESPACE` of `identity.py`. -/
def IDENTITY_NAMESPACE : List Char := "00001d".data

/-- `_MAX_KEY_PARTS` of `identity.py`. -/
def MAX_KEY_PARTS : Nat := 4

/-- `_FIRST_ADDRESS_PART_SIZE` of `identity.py`. -/
def FIRST_ADDRESS_PART_SIZE : Nat := 14

/-- `_ADDRESS_PART_SIZE` of `identity.py`. -/
def ADDRESS_PART_SIZE : Nat := 16

/-- The policy type code `"00"` (`_POLICY_` type code of `identity.py`). -/
def POLICY_CODE : List Char := "00".data

/-- The role type code `"01"` (`_ROLE_` type code of `identity.py`). -/
def ROLE_CODE : List Char := "01".data

/-- `_to_hash` of `identity.py`: `hashlib.sha256(value.encode()).hexdigest()`. -/
def toHashChars (value : List Char) : List Char := Sha256.sha256HexChars value

/-- `_EMPTY_PART` of `identity.py`: the first 16 hex characters of the hash of
the empty string. -/
def EMPTY_PART : List Char := (toHashChars []).take ADDRESS_PART_SIZE

/-- The `key_parts` of `_role_to_address`: `role_name.split('.', maxsplit=3)`. -/
def roleKeyParts (roleName : List Char) : List (List Char) :=
  pySplit '.' (MAX_KEY_PARTS - 1) roleName

/-- The `addr_parts` of `_role_to_address` after padding: the first part's
14-character hash, each later part's 16-character hash, padded to 4 entries
with `_EMPTY_PART`. -/
def roleAddrParts (roleName : List Char) : List (List Char) :=
  let key_parts := roleKeyParts roleName
  let addr_parts :=
    (toHashChars (key_parts.headD [])).take FIRST_ADDRESS_PART_SIZE ::
      (key_parts.drop 1).map (fun x => (toHashChars x).take ADDRESS_PART_SIZE)
  addr_parts ++ List.replicate (MAX_KEY_PARTS - addr_parts.length) EMPTY_PART

/-- `_role_to_address` of `identity.py`. -/
def roleToAddress (roleName : String) : String :=
  String.mk (IDENTITY_NAMESPACE ++ ROLE_CODE ++ (roleAddrParts roleName.data).flatten)

/-- `_policy_to_address` of `identity.py`. -/
def policyToAddress (policyName : String) : String :=
  String.mk (IDENTITY_NAMESPACE ++ POLICY_CODE ++ (toHashChars policyName.data).take 62)

/-- `Policy.Type` of the identity protobuf: `PERMIT_KEY` or `DENY_KEY`. -/
inductive EntryType
  | PERMIT_KEY
  | DENY_KEY
deriving DecidableEq

/-- `Policy.Entry` of the identity protobuf. -/
structure PolicyEntry where
  type : EntryType
  key : String
deriving DecidableEq

/-- `Policy` of the identity protobuf: a name and an ordered entry list. -/
structure Policy where
  name : String
  entries : List PolicyEntry
deriving DecidableEq

/-- `Role` of the identity protobuf: a name bound to a policy name. -/
structure Role where
  name : String
  policy_name : String
deriving DecidableEq

/-- `IdentityPayload.IdentityType`: the payload type discriminator. -/
inductive PayloadType
  | POLICY
  | ROLE
deriving DecidableEq

/-- `IdentityPayload`: a typed envelope around serialized policy/role bytes. -/
structure IdentityPayload where
  type : PayloadType
  data : List Nat
deriving DecidableEq

/-- `TransactionHeader` of the transaction protobuf, with the fields
`identity.py` sets. -/
structure TransactionHeader where
  signer_pubkey : String
  family_name : String
  family_version : String
  inputs : List String
  outputs : List String
  dependencies : List String
  payload_encoding : String
  payload_sha512 : String
  batcher_pubkey : String
  nonce : String
deriving DecidableEq

/-- `Transaction` of the transaction protobuf. The wire object stores only the
serialized header bytes; `headerFields` keeps the structured header alongside
so that properties of its fields can be stated (serialization is abstract). -/
structure Transaction where
  headerFields : TransactionHeader
  header : List Nat
  payload : List Nat
  header_signature : String
deriving DecidableEq

/-- `BatchHeader` of the batch protobuf. -/
structure BatchHeader where
  signer_pubkey : String
  transaction_ids : List String
deriving DecidableEq

/-- `Batch` of the batch protobuf, with the structured header kept alongside
the serialized bytes as for `Transaction`. -/
structure Batch where
  headerFields : BatchHeader
  header : List Nat
  header_signature : String
  transactions : List Transaction
deriving DecidableEq

/-- The external collaborators of `identity.py`: protobuf serialization
(`SerializeToString`), secp256k1 signing (`sawtooth_signing.sign`) and
SHA-512 (`hashlib.sha512(...).hexdigest()`). Every claim about them is
relational, so they are abstract function parameters. -/
structure Externals where
  sha512Hex : List Nat → String
  sign : List Nat → String → String
  serializePolicy : Policy → List Nat
  serializeRole : Role → List Nat
  serializePayload : IdentityPayload → List Nat
  serializeHeader : TransactionHeader → List Nat
  serializeBatchHeader : BatchHeader → List Nat

/-- The space-separated tokens of a rule string: `rule.split(" ")`. -/
def ruleTokens (rule : String) : List String :=
  (splitAll ' ' rule.data).map String.mk

/-- One iteration of the rule loop in `_create_policy_txn`: a rule whose first
token is `PERMIT_KEY`/`DENY_KEY` yields an entry built from token 1 (raising
`IndexError` when token 1 is absent, as Python's `rule[1]` does); any other
rule yields nothing. -/
def ruleToEntry (rule : String) : Except String (Option PolicyEntry) :=
  let r := ruleTokens rule
  if r.headD "" = "PERMIT_KEY" then
    match r.get? 1 with
    | some k => .ok (some ⟨.PERMIT_KEY, k⟩)
    | none => .error "IndexError: list index out of range"
  else if r.headD "" = "DENY_KEY" then
    match r.get? 1 with
    | some k => .ok (some ⟨.DENY_KEY, k⟩)
    | none => .error "IndexError: list index out of range"
  else .ok none

/-- The rule loop of `_create_policy_txn`: entries of the matching rules in
order, failing at the first malformed matching rule. -/
def parseEntries : List String → Except String (List PolicyEntry)
  | [] => .ok []
  | r :: rest =>
    match ruleToEntry r with
    | .error e => .error e
    | .ok none => parseEntries rest
    | .ok (some entry) => (parseEntries rest).map (fun es => entry :: es)

/-- `_create_policy_txn` of `identity.py`. The nonce (`time.time().hex()` in
the source) is nondeterministic and passed in. -/
def createPolicyTxn (ext : Externals) (pubkey signing_key policy_name : String)
    (rules : List String) (nonce : String) : Except String Transaction :=
  match parseEntries rules with
  | .error e => .error e
  | .ok entries =>
    let policy : Policy := ⟨policy_name, entries⟩
    let payload : IdentityPayload := ⟨.POLICY, ext.serializePolicy policy⟩
    let payloadBytes := ext.serializePayload payload
    let policy_address := policyToAddress policy_name
    let header : TransactionHeader :=
      { signer_pubkey := pubkey
        family_name := "sawtooth_identity"
        family_version := "1.0"
        inputs := [policy_address]
        outputs := [policy_address]
        dependencies := []
        payload_encoding := "application/protobuf"
        payload_sha512 := ext.sha512Hex payloadBytes
        batcher_pubkey := pubkey
        nonce := nonce }
    let header_bytes := ext.serializeHeader header
    .ok { headerFields := header, header := header_bytes,
          payload := payloadBytes,
          header_signature := ext.sign header_bytes signing_key }

/-- `_create_role_txn` of `identity.py`. -/
def createRoleTxn (ext : Externals) (pubkey signing_key role_name policy_name : String)
    (nonce : String) : Transaction :=
  let role : Role := ⟨role_name, policy_name⟩
  let payload : IdentityPayload := ⟨.ROLE, ext.serializeRole role⟩
  let payloadBytes := ext.serializePayload payload
  let policy_address := policyToAddress policy_name
  let role_address := roleToAddress role_name
  let header : TransactionHeader :=
    { signer_pubkey := pubkey
      family_name := "sawtooth_identity"
      family_version := "1.0"
      inputs := [policy_address, role_address]
      outputs := [role_address]
      dependencies := []
      payload_encoding := "application/protobuf"
      payload_sha512 := ext.sha512Hex payloadBytes
      batcher_pubkey := pubkey
      nonce := nonce }
  let header_bytes := ext.serializeHeader header
  { headerFields := header, header := header_bytes,
    payload := payloadBytes,
    header_signature := ext.sign header_bytes signing_key }

/-- `_create_batch` of `identity.py`. -/
def createBatch (ext : Externals) (pubkey signing_key : String)
    (transactions : List Transaction) : Batch :=
  let txn_ids := transactions.map (fun t => t.header_signature)
  let batch_header : BatchHeader := ⟨pubkey, txn_ids⟩
  let header_bytes := ext.serializeBatchHeader batch_header
  { headerFields := batch_header, header := header_bytes,
    header_signature := ext.sign header_bytes signing_key,
    transactions := transactions }

/-- The accumulation-and-sort core of `_do_identity_policy_list`: append the
policies decoded from each fetched state value in order, then sort by name
(Python's stable `list.sort(key=lambda p: p.name)`). -/
def policyListing (stateValues : List (List Policy)) : List Policy :=
  (stateValues.foldl (fun acc pl => acc ++ pl) []).mergeSort
    (fun a b => decide (a.name ≤ b.name))

/-- The accumulation-and-sort core of `_do_identity_role_list`. -/
def roleListing (stateValues : List (List Role)) : List Role :=
  (stateValues.foldl (fun acc rl => acc ++ rl) []).mergeSort
    (fun a b => decide (a.name ≤ b.name))

/-- Join parts with a separator character (inverse of `splitAll`). -/
def joinSep (sep : Char) : List (List Char) → List Char
  | [] => []
  | [p] => p
  | p :: ps => p ++ sep :: joinSep sep ps

/-- Modelled from the spec: split the name on `.` into at most 4 parts, where
the 4th part absorbs any remaining text verbatim, including further dots —
realised here as a full split followed by re-joining everything from the
4th part on with `.`. -/
def specSplitAtMost4 (sep : Char) (cs : List Char) : List (List Char) :=
  let ps := splitAll sep cs
  if ps.length ≤ 4 then ps else ps.take 3 ++ [joinSep sep (ps.drop 3)]

/-- Modelled from the spec: `role_address` as §4.1 words it — first part
hashed to 14 hex characters, later parts to 16, padded to 4 parts with the
first 16 hex characters of the hash of the empty string. -/
def roleAddressSpec (name : String) : String :=
  let parts := specSplitAtMost4 '.' name.data
  let hashed := (toHashChars (parts.headD [])).take 14 ::
      (parts.drop 1).map (fun x => (toHashChars x).take 16)
  let padded := hashed ++ List.replicate (4 - hashed.length) ((toHashChars []).take 16)
  String.mk ("00001d".data ++ "01".data ++ padded.flatten)

/-- The `j`-th fixed-width segment of a role address (characters 8–21 for
segment 0, then three 16-character segments). -/
def addrSegment (j : Nat) (addr : String) : List Char :=
  if j = 0 then (addr.data.drop 8).take 14
  else (addr.data.drop (22 + 16 * (j - 1))).take 16

/-- Modelled from the spec: the entry a rule contributes when it matches the
`PERMIT_KEY <key>` / `DENY_KEY <key>` grammar (`none` for non-matching rules). -/
def specRuleEntry (rule : String) : Option PolicyEntry :=
  let r := ruleTokens rule
  if r.headD "" = "PERMIT_KEY" then some ⟨.PERMIT_KEY, r.getD 1 ""⟩
  else if r.headD "" = "DENY_KEY" then some ⟨.DENY_KEY, r.getD 1 ""⟩
  else none

/-- Whether a rule's first space-separated token matches the grammar. -/
def ruleMatches (rule : String) : Prop :=
  (ruleTokens rule).headD "" = "PERMIT_KEY" ∨ (ruleTokens rule).headD "" = "DENY_KEY"

instance (rule : String) : Decidable (ruleMatches rule) := by
  unfold ruleMatches; infer_instance

/-- A concrete choice of the external collaborators, used only to instantiate
universally quantified theorems at a specific point. -/
def trivialExternals : Externals where
  sha512Hex := fun _ => ""
  sign := fun _ _ => ""
  serializePolicy := fun _ => []
  serializeRole := fun _ => []
  serializePayload := fun _ => []
  serializeHeader := fun _ => []
  serializeBatchHeader := fun _ => []

/-- The dotless role names `"a"`, `"aa"`, `"aaa"`, … used to exhibit a
truncation collision by counting. -/
def repName (n : Nat) : String := String.mk (List.replicate (n + 1) 'a')

/-- The transaction `createPolicyTxn trivialExternals "p" "s" "n" [] "x"`
builds, written out; used to instantiate theorems at a concrete point. -/
def samplePolicyTxn : Transaction :=
  { headerFields :=
      { signer_pubkey := "p"
        family_name := "sawtooth_identity"
        family_version := "1.0"
        inputs := [policyToAddress "n"]
        outputs := [policyToAddress "n"]
        dependencies := []
        payload_encoding := "application/protobuf"
        payload_sha512 := ""
        batcher_pubkey := "p"
        nonce := "x" }
    header := []
    payload := []
    header_signature := "" }

end SawtoothIdentity

/-- The SHA-256 embedding reproduces the standard digest of the empty string
(FIPS 180-4 / Python `hashlib` test vector). -/
theorem sha256Hex_empty_vector : Sha256.sha256Hex "" =
    "e3b0c44298fc1c149afbf4c8996fb92427ae41e4649b934ca495991b7852b855" := by decide

/-- The SHA-256 embedding reproduces the standard digest of `"abc"`
(FIPS 180-4 test vector). -/
theorem sha256Hex_abc_vector : Sha256.sha256Hex "abc" =
    "ba7816bf8f01cfea414140de5dae2223b00361a396177a9cb410ff61f20015ad" := by decide

/-- The embedded `_role_to_address` reproduces the address the Python module
computes for `"a"` (value obtained from CPython's `hashlib`). -/
theorem roleToAddress_a_vector : SawtoothIdentity.roleToAddress "a" =
    "00001d01ca978112ca1bbde3b0c44298fc1c14e3b0c44298fc1c14e3b0c44298fc1c14" := by decide

/-- The embedded `_role_to_address` reproduces the Python value for a name
with four dots: the 4th part absorbs `"x.y"` unsplit. -/
theorem roleToAddress_deep_vector : SawtoothIdentity.roleToAddress "org.dept.team.x.y" =
    "00001d01e87cb45c05ad38656d84e0dabc849fca8b22d0db83a22db24ca9b75eb7b757" := by decide

/-- The embedded `_policy_to_address` reproduces the Python value for
`"org.marketing"` (the spec's concrete scenario). -/
theorem policyToAddress_vector : SawtoothIdentity.policyToAddress "org.marketing" =
    "00001d0011e04a7e596fdd4c75a5006856a8a4f4840b18bf7e1419b0194538ab9f58c7" := by decide

/-- The embedded `str.split('.', maxsplit=3)` matches CPython on a name with
empty parts and a remainder containing a dot. -/
theorem pySplit_vector : SawtoothIdentity.pySplit '.' 3 "a.b..c.d".data =
    ["a".data, "b".data, [], "c.d".data] := by decide

namespace Sha256

theorem wordHex_length (w : Nat) : (wordHex w).length = 8 := by
  simp [wordHex]

theorem digestChars_length (msg : List Nat) : (digestChars msg).length = 64 := by
  simp [digestChars, hash8Words, List.length_flatten, wordHex_length]

theorem sha256HexChars_length (cs : List Char) : (sha256HexChars cs).length = 64 :=
  digestChars_length _

theorem hexDigit_mem : ∀ n < 16, hexDigit n ∈ hexAlphabet := by decide

theorem digestChars_mem_hex (msg : List Nat) {c : Char} (hc : c ∈ digestChars msg) :
    c ∈ hexAlphabet := by
  simp only [digestChars, List.mem_flatten, List.mem_map] at hc
  obtain ⟨l, ⟨w, _, rfl⟩, hcl⟩ := hc
  simp only [wordHex, List.mem_map, List.mem_range] at hcl
  obtain ⟨i, _, rfl⟩ := hcl
  exact hexDigit_mem _ (Nat.mod_lt _ (by omega))

theorem sha256HexChars_mem_hex (cs : List Char) {c : Char}
    (hc : c ∈ sha256HexChars cs) : c ∈ hexAlphabet :=
  digestChars_mem_hex _ hc

end Sha256

namespace SawtoothIdentity

theorem splitAll_ne_nil (sep : Char) (cs : List Char) : splitAll sep cs ≠ [] := by
  cases cs with
  | nil => simp [splitAll]
  | cons c rest =>
    simp only [splitAll]
    split
    · simp
    · cases h : splitAll sep rest <;> simp

theorem pySplit_ne_nil (sep : Char) (m : Nat) (cs : List Char) :
    pySplit sep m cs ≠ [] := by
  cases cs with
  | nil => simp [pySplit]
  | cons c rest =>
    cases m with
    | zero => simp [pySplit]
    | succ m =>
      simp only [pySplit]
      split
      · simp
      · cases h : pySplit sep (m + 1) rest <;> simp

theorem joinSep_splitAll (sep : Char) (cs : List Char) :
    joinSep sep (splitAll sep cs) = cs := by
  induction cs with
  | nil => simp [splitAll, joinSep]
  | cons c rest ih =>
    by_cases hc : c = sep
    · rw [hc]
      simp only [splitAll, if_pos rfl]
      cases h : splitAll sep rest with
      | nil => exact absurd h (splitAll_ne_nil sep rest)
      | cons p ps =>
        rw [h] at ih
        simp [joinSep, ih]
    · simp only [splitAll, if_neg hc]
      cases h : splitAll sep rest with
      | nil => exact absurd h (splitAll_ne_nil sep rest)
      | cons p ps =>
        rw [h] at ih
        cases ps with
        | nil => simpa [joinSep] using congrArg (c :: ·) ih
        | cons q qs => simpa [joinSep] using congrArg (c :: ·) ih

theorem length_splitAll (sep : Char) (cs : List Char) :
    (splitAll sep cs).length = cs.count sep + 1 := by
  induction cs with
  | nil => simp [splitAll]
  | cons c rest ih =>
    by_cases hc : c = sep
    · subst hc
      simp [splitAll, ih, List.count_cons]
    · simp only [splitAll, if_neg hc]
      cases h : splitAll sep rest with
      | nil => exact absurd h (splitAll_ne_nil sep rest)
      | cons p ps =>
        rw [h] at ih
        simpa [List.count_cons, hc] using ih

theorem splitAll_cons_self (sep : Char) (rest : List Char) :
    splitAll sep (sep :: rest) = [] :: splitAll sep rest := by
  simp [splitAll]

theorem pySplit_cons_self (sep : Char) (m : Nat) (rest : List Char) :
    pySplit sep (m + 1) (sep :: rest) = [] :: pySplit sep m rest := by
  simp [pySplit]

theorem splitAll_cons_ne (sep c : Char) (rest : List Char) (h : ¬c = sep)
    {q : List Char} {qs : List (List Char)} (hr : splitAll sep rest = q :: qs) :
    splitAll sep (c :: rest) = (c :: q) :: qs := by
  simp [splitAll, if_neg h, hr]

theorem pySplit_cons_ne (sep c : Char) (m : Nat) (rest : List Char) (h : ¬c = sep)
    {q : List Char} {qs : List (List Char)} (hr : pySplit sep (m + 1) rest = q :: qs) :
    pySplit sep (m + 1) (c :: rest) = (c :: q) :: qs := by
  simp [pySplit, if_neg h, hr]

theorem pySplit_eq_splitAll (sep : Char) : ∀ (cs : List Char) (m : Nat),
    pySplit sep m cs =
      if (splitAll sep cs).length ≤ m + 1 then splitAll sep cs
      else (splitAll sep cs).take m ++ [joinSep sep ((splitAll sep cs).drop m)] := by
  intro cs
  induction cs with
  | nil => intro m; simp [pySplit, splitAll]
  | cons c rest ih =>
    intro m
    cases m with
    | zero =>
      have hj := joinSep_splitAll sep (c :: rest)
      by_cases hone : (splitAll sep (c :: rest)).length ≤ 0 + 1
      · rw [if_pos hone]
        have hlen1 : (splitAll sep (c :: rest)).length = 1 := by
          have := List.length_pos.mpr (splitAll_ne_nil sep (c :: rest))
          omega
        obtain ⟨x, hx⟩ := List.length_eq_one.mp hlen1
        rw [hx] at hj ⊢
        simp only [joinSep] at hj
        simp only [pySplit]
        rw [hj]
      · rw [if_neg hone]
        simp only [pySplit, List.take_zero, List.drop_zero, List.nil_append]
        rw [hj]
    | succ m =>
      by_cases hc : c = sep
      · rw [hc, pySplit_cons_self, splitAll_cons_self, ih m]
        by_cases hle : (splitAll sep rest).length ≤ m + 1
        · rw [if_pos hle, if_pos (by simp only [List.length_cons]; omega)]
        · rw [if_neg hle, if_neg (by simp only [List.length_cons]; omega)]
          simp [List.take_succ_cons, List.drop_succ_cons]
      · rcases h : splitAll sep rest with _ | ⟨q, qs⟩
        · exact absurd h (splitAll_ne_nil sep _)
        · rw [splitAll_cons_ne sep c rest hc h]
          by_cases hle : (q :: qs).length ≤ m + 1 + 1
          · have hp : pySplit sep (m + 1) rest = q :: qs := by
              rw [ih (m + 1), h, if_pos hle]
            rw [pySplit_cons_ne sep c m rest hc hp,
              if_pos (by simpa using hle)]
          · have hp : pySplit sep (m + 1) rest =
                q :: ((qs.take m) ++ [joinSep sep (qs.drop m)]) := by
              rw [ih (m + 1), h, if_neg hle]
              simp [List.take_succ_cons, List.drop_succ_cons]
            rw [pySplit_cons_ne sep c m rest hc hp,
              if_neg (by simpa using hle)]
            simp [List.take_succ_cons, List.drop_succ_cons]

theorem splitAll_no_sep (sep : Char) (cs : List Char) (h : sep ∉ cs) :
    splitAll sep cs = [cs] := by
  induction cs with
  | nil => simp [splitAll]
  | cons c rest ih =>
    have hc : ¬c = sep := by
      intro hcs
      exact h (hcs ▸ List.mem_cons_self c rest)
    exact splitAll_cons_ne sep c rest hc
      (ih (fun hm => h (List.mem_cons_of_mem _ hm)))

theorem pySplit_no_sep (sep : Char) (m : Nat) (cs : List Char) (h : sep ∉ cs) :
    pySplit sep m cs = [cs] := by
  rw [pySplit_eq_splitAll, splitAll_no_sep sep cs h, if_pos (by simp)]

theorem pySplit_length_le (sep : Char) (m : Nat) (cs : List Char) :
    (pySplit sep m cs).length ≤ m + 1 := by
  rw [pySplit_eq_splitAll]
  split
  · next hle => exact hle
  · next hle =>
    simp only [List.length_append, List.length_take, List.length_cons,
      List.length_nil]
    omega

theorem pySplit_length_eq (sep : Char) (m : Nat) (cs : List Char)
    (h : cs.count sep ≤ m) : pySplit sep m cs = splitAll sep cs := by
  rw [pySplit_eq_splitAll, if_pos (by rw [length_splitAll]; omega)]

theorem splitAll_append_sep (sep : Char) (cs : List Char) :
    splitAll sep (cs ++ [sep]) = splitAll sep cs ++ [[]] := by
  induction cs with
  | nil => simp [splitAll]
  | cons c rest ih =>
    by_cases hc : c = sep
    · rw [hc, List.cons_append, splitAll_cons_self, splitAll_cons_self, ih,
        List.cons_append]
    · rcases h : splitAll sep rest with _ | ⟨q, qs⟩
      · exact absurd h (splitAll_ne_nil sep rest)
      · have h2 : splitAll sep (rest ++ [sep]) = q :: (qs ++ [[]]) := by
          rw [ih, h, List.cons_append]
        rw [List.cons_append, splitAll_cons_ne sep c _ hc h2,
          splitAll_cons_ne sep c rest hc h, List.cons_append]

theorem roleKeyParts_eq_splitAll (cs : List Char) (h : cs.count '.' ≤ 3) :
    roleKeyParts cs = splitAll '.' cs := by
  unfold roleKeyParts
  exact pySplit_length_eq '.' (MAX_KEY_PARTS - 1) cs h

theorem roleKeyParts_append_dot (cs : List Char) (h : cs.count '.' ≤ 2) :
    roleKeyParts (cs ++ ['.']) = roleKeyParts cs ++ [[]] := by
  rw [roleKeyParts_eq_splitAll cs (by omega),
    roleKeyParts_eq_splitAll (cs ++ ['.'])
      (by simp only [List.count_append]; simp [List.count_cons]; omega),
    splitAll_append_sep]

theorem roleAddrParts_append_dot (cs : List Char) (h : cs.count '.' ≤ 2) :
    roleAddrParts (cs ++ ['.']) = roleAddrParts cs := by
  unfold roleAddrParts
  rw [roleKeyParts_append_dot cs h]
  rcases hk : roleKeyParts cs with _ | ⟨s0, srest⟩
  · exact absurd hk (pySplit_ne_nil '.' (MAX_KEY_PARTS - 1) cs)
  · have hsr : srest.length ≤ 2 := by
      have h1 : (roleKeyParts cs).length = cs.count '.' + 1 := by
        rw [roleKeyParts_eq_splitAll cs (by omega), length_splitAll]
      rw [hk] at h1
      simp only [List.length_cons] at h1
      omega
    simp only [List.cons_append, List.headD_cons, List.drop_succ_cons,
      List.drop_zero, List.map_append, List.map_cons, List.map_nil]
    have hEmpty : (toHashChars []).take ADDRESS_PART_SIZE = EMPTY_PART := rfl
    rw [hEmpty]
    simp only [List.length_cons, List.length_append, List.length_map,
      List.length_nil]
    have h4 : MAX_KEY_PARTS - (srest.length + 0 + 1 + 1) + 1 =
        MAX_KEY_PARTS - (srest.length + 1) := by
      unfold MAX_KEY_PARTS
      omega
    rw [← h4]
    generalize (toHashChars s0).take FIRST_ADDRESS_PART_SIZE = p0
    generalize srest.map (fun x => (toHashChars x).take ADDRESS_PART_SIZE) = prest
    rw [List.replicate_succ]
    simp

theorem toHashChars_length (cs : List Char) : (toHashChars cs).length = 64 :=
  Sha256.sha256HexChars_length cs

theorem take16_toHashChars_length (cs : List Char) :
    ((toHashChars cs).take ADDRESS_PART_SIZE).length = 16 := by
  rw [List.length_take, toHashChars_length]
  rfl

theorem roleKeyParts_length_le (cs : List Char) : (roleKeyParts cs).length ≤ 4 :=
  pySplit_length_le '.' (MAX_KEY_PARTS - 1) cs

theorem roleAddrParts_map_length (cs : List Char) :
    (roleAddrParts cs).map List.length = [14, 16, 16, 16] := by
  unfold roleAddrParts
  rcases hk : roleKeyParts cs with _ | ⟨s0, srest⟩
  · exact absurd hk (pySplit_ne_nil '.' (MAX_KEY_PARTS - 1) cs)
  · have hsr : srest.length ≤ 3 := by
      have := roleKeyParts_length_le cs
      rw [hk] at this
      simp only [List.length_cons] at this
      omega
    simp only [List.map_append, List.map_cons, List.map_replicate,
      List.drop_succ_cons, List.drop_zero, List.map_map, List.headD_cons]
    have hlen14 : ((toHashChars s0).take FIRST_ADDRESS_PART_SIZE).length = 14 := by
      rw [List.length_take, toHashChars_length]
      rfl
    have hlenE : EMPTY_PART.length = 16 := take16_toHashChars_length []
    have hmap : srest.map (List.length ∘ fun x => (toHashChars x).take ADDRESS_PART_SIZE) =
        List.replicate srest.length 16 := by
      rw [show (List.length ∘ fun x => (toHashChars x).take ADDRESS_PART_SIZE) =
          (fun x : List Char => 16) from funext (fun x => take16_toHashChars_length x),
        List.map_const']
    rw [hmap, hlen14, hlenE]
    simp only [List.length_cons, List.length_map]
    have h4 : MAX_KEY_PARTS - (srest.length + 1) = 3 - srest.length := by
      unfold MAX_KEY_PARTS
      omega
    rw [h4, List.cons_append, ← List.replicate_add,
      show srest.length + (3 - srest.length) = 3 from by omega]
    rfl

theorem roleAddrParts_length (cs : List Char) : (roleAddrParts cs).length = 4 := by
  have := congrArg List.length (roleAddrParts_map_length cs)
  simpa using this

theorem roleAddrParts_four (cs : List Char) :
    ∃ p0 p1 p2 p3 : List Char, roleAddrParts cs = [p0, p1, p2, p3] ∧
      p0.length = 14 ∧ p1.length = 16 ∧ p2.length = 16 ∧ p3.length = 16 := by
  have hm := roleAddrParts_map_length cs
  rcases h : roleAddrParts cs with _ | ⟨p0, _ | ⟨p1, _ | ⟨p2, _ | ⟨p3, _ | ⟨p4, tl⟩⟩⟩⟩⟩ <;>
      rw [h] at hm
  · simp at hm
  · simp at hm
  · simp at hm
  · simp at hm
  · simp only [List.map_cons, List.map_nil, List.cons.injEq, and_true] at hm
    exact ⟨p0, p1, p2, p3, rfl, hm.1, hm.2.1, hm.2.2.1, hm.2.2.2⟩
  · simp at hm

theorem roleToAddress_data (name : String) :
    (roleToAddress name).data = "00001d01".data ++ (roleAddrParts name.data).flatten := rfl

theorem policyToAddress_data (name : String) :
    (policyToAddress name).data = "00001d00".data ++ (toHashChars name.data).take 62 := rfl

theorem roleToAddress_length (name : String) : (roleToAddress name).length = 70 := by
  show (roleToAddress name).data.length = 70
  rw [roleToAddress_data, List.length_append, List.length_flatten,
    roleAddrParts_map_length]
  rfl

theorem policyToAddress_length (name : String) : (policyToAddress name).length = 70 := by
  show (policyToAddress name).data.length = 70
  rw [policyToAddress_data, List.length_append, List.length_take,
    toHashChars_length]
  rfl

theorem roleToAddress_take8 (name : String) :
    (roleToAddress name).data.take 8 = "00001d01".data := by
  rw [roleToAddress_data]
  exact List.take_left' rfl

theorem policyToAddress_take8 (name : String) :
    (policyToAddress name).data.take 8 = "00001d00".data := by
  rw [policyToAddress_data]
  exact List.take_left' rfl

theorem mem_roleAddrParts_hex (cs : List Char) {l : List Char}
    (hl : l ∈ roleAddrParts cs) {c : Char} (hc : c ∈ l) : c ∈ Sha256.hexAlphabet := by
  unfold roleAddrParts at hl
  rcases List.mem_append.mp hl with h | h
  · rcases List.mem_cons.mp h with h | h
    · subst h
      exact Sha256.sha256HexChars_mem_hex _ (List.mem_of_mem_take hc)
    · obtain ⟨x, _, rfl⟩ := List.mem_map.mp h
      exact Sha256.sha256HexChars_mem_hex _ (List.mem_of_mem_take hc)
  · rw [List.eq_of_mem_replicate h] at hc
    exact Sha256.sha256HexChars_mem_hex _ (List.mem_of_mem_take hc)

theorem roleToAddress_hex (name : String) :
    ∀ c ∈ (roleToAddress name).data, c ∈ Sha256.hexAlphabet := by
  intro c hc
  rw [roleToAddress_data] at hc
  rcases List.mem_append.mp hc with h | h
  · exact (by decide : ∀ x ∈ "00001d01".data, x ∈ Sha256.hexAlphabet) c h
  · obtain ⟨l, hl, hcl⟩ := List.mem_flatten.mp h
    exact mem_roleAddrParts_hex name.data hl hcl

theorem policyToAddress_hex (name : String) :
    ∀ c ∈ (policyToAddress name).data, c ∈ Sha256.hexAlphabet := by
  intro c hc
  rw [policyToAddress_data] at hc
  rcases List.mem_append.mp hc with h | h
  · exact (by decide : ∀ x ∈ "00001d00".data, x ∈ Sha256.hexAlphabet) c h
  · exact Sha256.sha256HexChars_mem_hex _ (List.mem_of_mem_take h)

theorem addrSegment_eq (name : String) :
    ∀ j < 4, addrSegment j (roleToAddress name) = (roleAddrParts name.data).getD j [] := by
  obtain ⟨p0, p1, p2, p3, hp, h0, h1, h2, h3⟩ := roleAddrParts_four name.data
  have hdata : (roleToAddress name).data =
      "00001d01".data ++ (p0 ++ (p1 ++ (p2 ++ (p3 ++ [])))) := by
    rw [roleToAddress_data, hp]
    rfl
  intro j hj
  interval_cases j
  · rw [addrSegment, if_pos rfl, hdata, hp,
      List.drop_left' (show ("00001d01".data).length = 8 from rfl),
      List.take_left' h0]
    rfl
  · rw [addrSegment, if_neg (by omega), hdata, hp,
      show "00001d01".data ++ (p0 ++ (p1 ++ (p2 ++ (p3 ++ [])))) =
        ("00001d01".data ++ p0) ++ (p1 ++ (p2 ++ (p3 ++ []))) from by
        simp only [List.append_assoc],
      List.drop_left' (show ("00001d01".data ++ p0).length = 22 + 16 * (1 - 1) from by
        simp only [List.length_append, h0]; decide),
      List.take_left' h1]
    rfl
  · rw [addrSegment, if_neg (by omega), hdata, hp,
      show "00001d01".data ++ (p0 ++ (p1 ++ (p2 ++ (p3 ++ [])))) =
        (("00001d01".data ++ p0) ++ p1) ++ (p2 ++ (p3 ++ [])) from by
        simp only [List.append_assoc],
      List.drop_left' (show (("00001d01".data ++ p0) ++ p1).length = 22 + 16 * (2 - 1) from by
        simp only [List.length_append, h0, h1]; decide),
      List.take_left' h2]
    rfl
  · rw [addrSegment, if_neg (by omega), hdata, hp,
      show "00001d01".data ++ (p0 ++ (p1 ++ (p2 ++ (p3 ++ [])))) =
        ((("00001d01".data ++ p0) ++ p1) ++ p2) ++ (p3 ++ []) from by
        simp only [List.append_assoc],
      List.drop_left' (show ((("00001d01".data ++ p0) ++ p1) ++ p2).length = 22 + 16 * (3 - 1) from by
        simp only [List.length_append, h0, h1, h2]; decide),
      List.take_left' h3]
    rfl

theorem roleAddrParts_getD (cs : List Char) (j : Nat) (hj : j < 4) :
    (roleAddrParts cs).getD j [] =
      if j < (roleKeyParts cs).length then
        (if j = 0 then
          (toHashChars ((roleKeyParts cs).getD 0 [])).take FIRST_ADDRESS_PART_SIZE
        else
          (toHashChars ((roleKeyParts cs).getD j [])).take ADDRESS_PART_SIZE)
      else EMPTY_PART := by
  have hle4 := roleKeyParts_length_le cs
  unfold roleAddrParts
  rcases hk : roleKeyParts cs with _ | ⟨s0, srest⟩
  · exact absurd hk (pySplit_ne_nil '.' (MAX_KEY_PARTS - 1) cs)
  · simp only [List.headD_cons, List.drop_succ_cons, List.drop_zero,
      List.length_cons]
    rw [hk] at hle4
    simp only [List.length_cons] at hle4
    by_cases hlt : j < srest.length + 1
    · rw [if_pos hlt,
        List.getD_append _ _ _ j (by simpa using hlt)]
      cases j with
      | zero =>
        rw [if_pos rfl, List.getD_cons_zero, List.getD_cons_zero]
      | succ j =>
        rw [if_neg (by omega), List.getD_cons_succ, List.getD_cons_succ,
          List.getD_eq_getElem _ _ (by simpa using hlt),
          List.getD_eq_getElem _ _ (by omega), List.getElem_map]
    · rw [if_neg hlt,
        List.getD_append_right _ _ _ j (by simpa using hlt),
        List.getD_eq_getElem _ _ (by
          simp only [List.length_replicate, List.length_cons, List.length_map]
          unfold MAX_KEY_PARTS
          omega),
        List.getElem_replicate]

theorem char_toNat_lt (c : Char) : c.toNat < 1114112 := by
  rcases c.valid with h | ⟨h1, h2⟩ <;> simp [Char.toNat] <;> omega

theorem char_toNat_injective {a b : Char} (h : a.toNat = b.toNat) : a = b := by
  have := congrArg Char.ofNat h
  rwa [Char.ofNat_toNat, Char.ofNat_toNat] at this

theorem repName_injective : Function.Injective repName := by
  intro n m h
  have hlen : ∀ k, (repName k).length = k + 1 := fun k => by
    show (List.replicate (k + 1) 'a').length = k + 1
    simp
  have := congrArg String.length h
  rw [hlen n, hlen m] at this
  omega

theorem repName_no_dot (n : Nat) : '.' ∉ (repName n).data := by
  show '.' ∉ List.replicate (n + 1) 'a'
  simp [List.mem_replicate]

theorem roleAddrParts_nodot (cs : List Char) (h : '.' ∉ cs) :
    roleAddrParts cs =
      [(toHashChars cs).take FIRST_ADDRESS_PART_SIZE,
       EMPTY_PART, EMPTY_PART, EMPTY_PART] := by
  unfold roleAddrParts roleKeyParts
  rw [pySplit_no_sep _ _ _ h]
  rfl

/-- By counting: among the infinitely many dotless names `aa…a` some two
distinct ones share the first 14 hex digest characters, hence share the
whole role address. -/
theorem roleToAddress_exists_collision :
    ∃ n1 n2 : String, n1 ≠ n2 ∧ '.' ∉ n1.data ∧ '.' ∉ n2.data ∧
      roleToAddress n1 = roleToAddress n2 := by
  obtain ⟨a, b, hab, hfeq⟩ :=
    Finite.exists_ne_map_eq_of_infinite
      (fun (n : Nat) (i : Fin 14) =>
        (⟨((toHashChars ((repName n).data)).getD i 'a').toNat,
          char_toNat_lt _⟩ : Fin 1114112))
  refine ⟨repName a, repName b, fun h => hab (repName_injective h),
    repName_no_dot a, repName_no_dot b, ?_⟩
  have htake : (toHashChars ((repName a).data)).take 14 =
      (toHashChars ((repName b).data)).take 14 := by
    apply List.ext_getElem
    · simp [List.length_take, toHashChars_length]
    · intro i hi1 hi2
      have hi : i < 14 := by
        simp only [List.length_take, toHashChars_length] at hi1
        omega
      have hpt := congrFun hfeq ⟨i, hi⟩
      simp only [Fin.mk.injEq] at hpt
      have hchar := char_toNat_injective hpt
      rw [List.getElem_take, List.getElem_take,
        ← List.getD_eq_getElem _ 'a' (by rw [toHashChars_length]; omega),
        ← List.getD_eq_getElem _ 'a' (by rw [toHashChars_length]; omega)]
      exact hchar
  unfold roleToAddress
  rw [roleAddrParts_nodot _ (repName_no_dot a),
    roleAddrParts_nodot _ (repName_no_dot b)]
  show String.mk (_ ++ _ ++ ((toHashChars ((repName a).data)).take FIRST_ADDRESS_PART_SIZE ++
    (EMPTY_PART ++ (EMPTY_PART ++ (EMPTY_PART ++ []))))) = _
  rw [show FIRST_ADDRESS_PART_SIZE = 14 from rfl, htake]
  rfl

theorem ruleToEntry_ok_some {r : String} {e : PolicyEntry}
    (h : ruleToEntry r = .ok (some e)) : specRuleEntry r = some e := by
  unfold ruleToEntry at h
  unfold specRuleEntry
  by_cases h1 : (ruleTokens r).headD "" = "PERMIT_KEY"
  · rw [if_pos h1] at h ⊢
    rcases hg : (ruleTokens r).get? 1 with _ | k
    · rw [hg] at h
      cases h
    · rw [hg] at h
      have hd : (ruleTokens r).getD 1 "" = k := by
        rw [List.getD_eq_getElem?_getD, ← List.get?_eq_getElem?, hg]
        rfl
      injection h with h2
      rw [hd, ← h2]
  · rw [if_neg h1] at h ⊢
    by_cases h2 : (ruleTokens r).headD "" = "DENY_KEY"
    · rw [if_pos h2] at h ⊢
      rcases hg : (ruleTokens r).get? 1 with _ | k
      · rw [hg] at h
        cases h
      · rw [hg] at h
        have hd : (ruleTokens r).getD 1 "" = k := by
          rw [List.getD_eq_getElem?_getD, ← List.get?_eq_getElem?, hg]
          rfl
        injection h with h3
        rw [hd, ← h3]
    · rw [if_neg h2] at h
      cases h

theorem ruleToEntry_ok_none {r : String} (h : ruleToEntry r = .ok none) :
    specRuleEntry r = none := by
  unfold ruleToEntry at h
  unfold specRuleEntry
  by_cases h1 : (ruleTokens r).headD "" = "PERMIT_KEY"
  · rw [if_pos h1] at h
    rcases hg : (ruleTokens r).get? 1 with _ | k <;> rw [hg] at h <;> cases h
  · rw [if_neg h1] at h ⊢
    by_cases h2 : (ruleTokens r).headD "" = "DENY_KEY"
    · rw [if_pos h2] at h
      rcases hg : (ruleTokens r).get? 1 with _ | k <;> rw [hg] at h <;> cases h
    · rw [if_neg h2]

theorem ruleToEntry_not_matching {r : String} (h : ¬ruleMatches r) :
    ruleToEntry r = .ok none := by
  unfold ruleMatches at h
  push_neg at h
  unfold ruleToEntry
  rw [if_neg h.1, if_neg h.2]

theorem parseEntries_skip (pre post : List String) (r : String)
    (h : ¬ruleMatches r) :
    parseEntries (pre ++ r :: post) = parseEntries (pre ++ post) := by
  induction pre with
  | nil =>
    show parseEntries (r :: post) = parseEntries post
    simp [parseEntries, ruleToEntry_not_matching h]
  | cons p pre ih =>
    show parseEntries (p :: (pre ++ r :: post)) = parseEntries (p :: (pre ++ post))
    simp only [parseEntries]
    rw [ih]

theorem parseEntries_ok_eq (rules : List String) (l : List PolicyEntry)
    (h : parseEntries rules = .ok l) : l = rules.filterMap specRuleEntry := by
  induction rules generalizing l with
  | nil =>
    injection h with h2
    rw [← h2]
    rfl
  | cons r rest ih =>
    simp only [parseEntries] at h
    rcases he : ruleToEntry r with e | oe <;> rw [he] at h
    · cases h
    · cases oe with
      | none =>
        rw [List.filterMap_cons, ruleToEntry_ok_none he]
        exact ih l h
      | some entry =>
        rcases hrest : parseEntries rest with er | es <;> rw [hrest] at h
        · cases h
        · simp only [Except.map] at h
          injection h with h2
          rw [List.filterMap_cons, ruleToEntry_ok_some he, ← h2,
            ih es hrest]

theorem parseEntries_total (rules : List String)
    (h : ∀ r ∈ rules, ruleMatches r → 2 ≤ (ruleTokens r).length) :
    ∃ l, parseEntries rules = .ok l := by
  induction rules with
  | nil => exact ⟨[], rfl⟩
  | cons r rest ih =>
    obtain ⟨l, hl⟩ := ih (fun x hx => h x (List.mem_cons_of_mem _ hx))
    have hr : ∃ oe, ruleToEntry r = .ok oe := by
      unfold ruleToEntry
      by_cases h1 : (ruleTokens r).headD "" = "PERMIT_KEY"
      · rw [if_pos h1]
        have h2 : 2 ≤ (ruleTokens r).length :=
          h r (List.mem_cons_self r rest) (Or.inl h1)
        rcases hg : (ruleTokens r).get? 1 with _ | k
        · rw [List.get?_eq_none] at hg
          omega
        · exact ⟨_, rfl⟩
      · rw [if_neg h1]
        by_cases h2 : (ruleTokens r).headD "" = "DENY_KEY"
        · rw [if_pos h2]
          have h3 : 2 ≤ (ruleTokens r).length :=
            h r (List.mem_cons_self r rest) (Or.inr h2)
          rcases hg : (ruleTokens r).get? 1 with _ | k
          · rw [List.get?_eq_none] at hg
            omega
          · exact ⟨_, rfl⟩
        · rw [if_neg h2]
          exact ⟨none, rfl⟩
    obtain ⟨oe, hoe⟩ := hr
    cases oe with
    | none => exact ⟨l, by simp [parseEntries, hoe, hl]⟩
    | some entry => exact ⟨entry :: l, by simp [parseEntries, hoe, hl, Except.map]⟩

theorem createPolicyTxn_ok {ext : Externals} {pk sk name nonce : String}
    {rules : List String} {t : Transaction}
    (h : createPolicyTxn ext pk sk name rules nonce = .ok t) :
    ∃ entries, parseEntries rules = .ok entries ∧
      t = (let policy : Policy := ⟨name, entries⟩
           let payloadBytes := ext.serializePayload ⟨.POLICY, ext.serializePolicy policy⟩
           let header : TransactionHeader :=
             { signer_pubkey := pk
               family_name := "sawtooth_identity"
               family_version := "1.0"
               inputs := [policyToAddress name]
               outputs := [policyToAddress name]
               dependencies := []
               payload_encoding := "application/protobuf"
               payload_sha512 := ext.sha512Hex payloadBytes
               batcher_pubkey := pk
               nonce := nonce }
           { headerFields := header, header := ext.serializeHeader header,
             payload := payloadBytes,
             header_signature := ext.sign (ext.serializeHeader header) sk }) := by
  unfold createPolicyTxn at h
  rcases hp : parseEntries rules with e | entries <;> rw [hp] at h
  · cases h
  · injection h with h2
    exact ⟨entries, rfl, h2.symm⟩

theorem createPolicyTxn_error {ext : Externals} {pk sk name nonce e : String}
    {rules : List String}
    (h : parseEntries rules = .error e) :
    createPolicyTxn ext pk sk name rules nonce = .error e := by
  unfold createPolicyTxn
  rw [h]

end SawtoothIdentity

namespace SawtoothIdentity

theorem roleKeyParts_eq_spec (cs : List Char) :
    roleKeyParts cs = specSplitAtMost4 '.' cs := by
  unfold roleKeyParts specSplitAtMost4
  rw [pySplit_eq_splitAll]
  rfl

theorem roleToAddress_eq_spec (name : String) :
    roleToAddress name = roleAddressSpec name := by
  unfold roleToAddress roleAddressSpec
  rw [show specSplitAtMost4 '.' name.data = roleKeyParts name.data from
    (roleKeyParts_eq_spec _).symm]
  rfl

end SawtoothIdentity

namespace SawtoothIdentity

/-- C1: `role_address(name)` splits the name on `.` into at most 4 parts (a
4th part absorbing all remaining text, dots included), takes 14 hex digest
characters of the first part and 16 of each later part, pads missing slots
with the 16-character empty-string digest, and prefixes `00001d01`; a dotless
name yields one real part plus three padding parts, and `role_address("a")`
is `"00001d01" ++ sha256_hex("a")[0:14] ++ sha256_hex("")[0:16] * 3`. -/
theorem claim_C1_role_address :
    (∀ name : String, roleToAddress name = roleAddressSpec name) ∧
    (∀ name : String, '.' ∉ name.data →
      roleToAddress name = String.mk ("00001d01".data ++
        (toHashChars name.data).take 14 ++ EMPTY_PART ++ EMPTY_PART ++ EMPTY_PART)) ∧
    roleToAddress "a" = "00001d01" ++ (Sha256.sha256Hex "a").take 14 ++
      (Sha256.sha256Hex "").take 16 ++ (Sha256.sha256Hex "").take 16 ++
      (Sha256.sha256Hex "").take 16 := by
  refine ⟨roleToAddress_eq_spec, ?_, by decide⟩
  intro name h
  unfold roleToAddress
  rw [roleAddrParts_nodot _ h,
    show IDENTITY_NAMESPACE ++ ROLE_CODE = "00001d01".data from rfl]
  apply congrArg String.mk
  simp [List.append_assoc]
  rfl

/-- C1 witness: the second conjunct of `claim_C1_role_address` instantiated at
the dotless name `"b"`. -/
theorem claim_C1_witness :
    '.' ∉ ("b" : String).data ∧
    roleToAddress "b" = String.mk ("00001d01".data ++
      (toHashChars ("b" : String).data).take 14 ++ EMPTY_PART ++ EMPTY_PART ++
      EMPTY_PART) :=
  ⟨by decide, claim_C1_role_address.2.1 "b" (by decide)⟩

/-- C2: `policy_address(n)` of a non-empty name is `00001d` + `00` + the first
62 hex characters of the single SHA-256 of the whole name, is exactly 70 hex
characters, starts with `00001d00`, and is a pure deterministic function. -/
theorem claim_C2_policy_address (n : String) (hn : n ≠ "") :
    policyToAddress n = "00001d" ++ "00" ++ (Sha256.sha256Hex n).take 62 ∧
    (policyToAddress n).length = 70 ∧
    (policyToAddress n).data.take 8 = "00001d00".data ∧
    (∀ c ∈ (policyToAddress n).data, c ∈ Sha256.hexAlphabet) ∧
    (∀ m : String, n = m → policyToAddress n = policyToAddress m) := by
  refine ⟨?_, policyToAddress_length n, policyToAddress_take8 n,
    policyToAddress_hex n, fun m hm => by rw [hm]⟩
  apply String.ext
  rw [policyToAddress_data, String.data_append, String.data_append,
    String.data_take]
  rfl

/-- C2 witness: `claim_C2_policy_address` instantiated at `"a"`. -/
theorem claim_C2_witness :
    ("a" : String) ≠ "" ∧
    (policyToAddress "a" = "00001d" ++ "00" ++ (Sha256.sha256Hex "a").take 62 ∧
     (policyToAddress "a").length = 70 ∧
     (policyToAddress "a").data.take 8 = "00001d00".data ∧
     (∀ c ∈ (policyToAddress "a").data, c ∈ Sha256.hexAlphabet) ∧
     (∀ m : String, "a" = m → policyToAddress "a" = policyToAddress m)) :=
  ⟨by decide, claim_C2_policy_address "a" (by decide)⟩

/-- C4: the batch builder records, in order, the `header_signature` of each
given transaction as the batch header's `transaction_ids`, and stores the
given transaction list unchanged. -/
theorem claim_C4_batch_ids (ext : Externals) (pk sk : String)
    (txns : List Transaction) :
    (createBatch ext pk sk txns).headerFields.transaction_ids =
      txns.map (fun t => t.header_signature) ∧
    (createBatch ext pk sk txns).transactions = txns :=
  ⟨rfl, rfl⟩

end SawtoothIdentity

namespace SawtoothIdentity

/-- C3: every policy-create and role-create transaction header has family name
`sawtooth_identity`, family version `1.0`, no dependencies, signer key equal
to batcher key, and exactly the claimed input/output address sets (policy:
inputs = outputs = policy address; role: inputs = referenced policy address
then role address, outputs = role address). -/
theorem claim_C3_txn_headers :
    (∀ (ext : Externals) (pk sk name nonce : String) (rules : List String)
        (t : Transaction), createPolicyTxn ext pk sk name rules nonce = .ok t →
      t.headerFields.family_name = "sawtooth_identity" ∧
      t.headerFields.family_version = "1.0" ∧
      t.headerFields.dependencies = [] ∧
      t.headerFields.signer_pubkey = t.headerFields.batcher_pubkey ∧
      t.headerFields.inputs = [policyToAddress name] ∧
      t.headerFields.outputs = [policyToAddress name]) ∧
    (∀ (ext : Externals) (pk sk name policy nonce : String),
      (createRoleTxn ext pk sk name policy nonce).headerFields.family_name =
        "sawtooth_identity" ∧
      (createRoleTxn ext pk sk name policy nonce).headerFields.family_version =
        "1.0" ∧
      (createRoleTxn ext pk sk name policy nonce).headerFields.dependencies = [] ∧
      (createRoleTxn ext pk sk name policy nonce).headerFields.signer_pubkey =
        (createRoleTxn ext pk sk name policy nonce).headerFields.batcher_pubkey ∧
      (createRoleTxn ext pk sk name policy nonce).headerFields.inputs =
        [policyToAddress policy, roleToAddress name] ∧
      (createRoleTxn ext pk sk name policy nonce).headerFields.outputs =
        [roleToAddress name]) := by
  constructor
  · intro ext pk sk name nonce rules t h
    obtain ⟨entries, -, rfl⟩ := createPolicyTxn_ok h
    exact ⟨rfl, rfl, rfl, rfl, rfl, rfl⟩
  · intro ext pk sk name policy nonce
    exact ⟨rfl, rfl, rfl, rfl, rfl, rfl⟩

/-- C3 witness: the policy conjunct of `claim_C3_txn_headers` instantiated at
a concrete successful build. -/
theorem claim_C3_witness :
    createPolicyTxn trivialExternals "p" "s" "n" [] "x" = .ok samplePolicyTxn ∧
    (samplePolicyTxn.headerFields.family_name = "sawtooth_identity" ∧
     samplePolicyTxn.headerFields.family_version = "1.0" ∧
     samplePolicyTxn.headerFields.dependencies = [] ∧
     samplePolicyTxn.headerFields.signer_pubkey =
       samplePolicyTxn.headerFields.batcher_pubkey ∧
     samplePolicyTxn.headerFields.inputs = [policyToAddress "n"] ∧
     samplePolicyTxn.headerFields.outputs = [policyToAddress "n"]) :=
  have h : createPolicyTxn trivialExternals "p" "s" "n" [] "x" =
      .ok samplePolicyTxn := rfl
  ⟨h, claim_C3_txn_headers.1 trivialExternals "p" "s" "n" "x" [] samplePolicyTxn h⟩

/-- C5: a built transaction's `payload_sha512` header field is the SHA-512 hex
digest of the very payload bytes stored in the transaction, for both the
policy-create and role-create paths. -/
theorem claim_C5_payload_sha512 :
    (∀ (ext : Externals) (pk sk name nonce : String) (rules : List String)
        (t : Transaction), createPolicyTxn ext pk sk name rules nonce = .ok t →
      t.headerFields.payload_sha512 = ext.sha512Hex t.payload) ∧
    (∀ (ext : Externals) (pk sk name policy nonce : String),
      (createRoleTxn ext pk sk name policy nonce).headerFields.payload_sha512 =
        ext.sha512Hex (createRoleTxn ext pk sk name policy nonce).payload) := by
  constructor
  · intro ext pk sk name nonce rules t h
    obtain ⟨entries, -, rfl⟩ := createPolicyTxn_ok h
    rfl
  · intro ext pk sk name policy nonce
    rfl

/-- C5 witness: the policy conjunct of `claim_C5_payload_sha512` instantiated
at a concrete successful build. -/
theorem claim_C5_witness :
    createPolicyTxn trivialExternals "p" "s" "n" [] "x" = .ok samplePolicyTxn ∧
    samplePolicyTxn.headerFields.payload_sha512 =
      trivialExternals.sha512Hex samplePolicyTxn.payload :=
  have h : createPolicyTxn trivialExternals "p" "s" "n" [] "x" =
      .ok samplePolicyTxn := rfl
  ⟨h, claim_C5_payload_sha512.1 trivialExternals "p" "s" "n" "x" [] samplePolicyTxn h⟩

end SawtoothIdentity

namespace SawtoothIdentity

/-- C6 counterexample: the claim's "the resulting addresses differ in the
corresponding segment" is false. By counting (infinitely many dotless names,
finitely many 14-character segments) two distinct dotless names — which
differ in exactly their single dot-delimited component, part 0 — have role
addresses agreeing on segment 0 (indeed equal outright). -/
theorem claim_C6_counterexample :
    ¬(∀ n1 n2 : String, '.' ∉ n1.data → '.' ∉ n2.data → n1 ≠ n2 →
        addrSegment 0 (roleToAddress n1) ≠ addrSegment 0 (roleToAddress n2)) := by
  intro hclaim
  obtain ⟨n1, n2, hne, h1, h2, heq⟩ := roleToAddress_exists_collision
  exact hclaim n1 n2 h1 h2 hne (by rw [heq])

/-- C6 (amended): for every non-empty name, `role_address(n)` is 70 hex
characters starting with `00001d01`; and when two names have the same number
of dot-parts and agree on every part except part `i`, their addresses agree
on every 14/16-character segment except possibly segment `i` — the changed
part's segment is not guaranteed to differ, since truncated hashes can
collide (`claim_C6_counterexample`). -/
theorem claim_C6_role_address_segments :
    (∀ n : String, n ≠ "" → (roleToAddress n).length = 70 ∧
      (roleToAddress n).data.take 8 = "00001d01".data ∧
      (∀ c ∈ (roleToAddress n).data, c ∈ Sha256.hexAlphabet)) ∧
    (∀ (n1 n2 : String) (i : Nat),
      (roleKeyParts n1.data).length = (roleKeyParts n2.data).length →
      (∀ j < 4, j ≠ i →
        (roleKeyParts n1.data).getD j [] = (roleKeyParts n2.data).getD j []) →
      ∀ j < 4, j ≠ i →
        addrSegment j (roleToAddress n1) = addrSegment j (roleToAddress n2)) := by
  constructor
  · intro n hn
    exact ⟨roleToAddress_length n, roleToAddress_take8 n, roleToAddress_hex n⟩
  · intro n1 n2 i hlen hagree j hj hij
    rw [addrSegment_eq n1 j hj, addrSegment_eq n2 j hj,
      roleAddrParts_getD n1.data j hj, roleAddrParts_getD n2.data j hj, ← hlen]
    by_cases hlt : j < (roleKeyParts n1.data).length
    · rw [if_pos hlt, if_pos hlt]
      by_cases hz : j = 0
      · rw [if_pos hz, if_pos hz, hagree 0 (by omega) (by omega)]
      · rw [if_neg hz, if_neg hz, hagree j hj hij]
    · rw [if_neg hlt, if_neg hlt]

/-- C6 witness: both conjuncts of `claim_C6_role_address_segments`
instantiated: the shape facts at `"ab"`, the segment agreement at the names
`"x.y"` and `"x.z"` differing in part 1. -/
theorem claim_C6_witness :
    (("ab" : String) ≠ "" ∧
      ((roleToAddress "ab").length = 70 ∧
       (roleToAddress "ab").data.take 8 = "00001d01".data ∧
       (∀ c ∈ (roleToAddress "ab").data, c ∈ Sha256.hexAlphabet))) ∧
    (∀ j < 4, j ≠ 1 →
      addrSegment j (roleToAddress "x.y") = addrSegment j (roleToAddress "x.z")) :=
  ⟨⟨by decide, claim_C6_role_address_segments.1 "ab" (by decide)⟩,
   claim_C6_role_address_segments.2 "x.y" "x.z" 1 (by decide) (by decide)⟩

/-- C7: a rule whose first space-separated token is neither `PERMIT_KEY` nor
`DENY_KEY` is silently skipped — deleting it from the rule list changes
nothing (no entry produced, no error raised) — and any successful parse
yields exactly the matching rules' entries in the given order. -/
theorem claim_C7_malformed_skip :
    (∀ (pre post : List String) (r : String), ¬ruleMatches r →
      parseEntries (pre ++ r :: post) = parseEntries (pre ++ post)) ∧
    (∀ (rules : List String) (l : List PolicyEntry),
      parseEntries rules = .ok l → l = rules.filterMap specRuleEntry) :=
  ⟨parseEntries_skip, parseEntries_ok_eq⟩

/-- C7 witness: `claim_C7_malformed_skip` instantiated at a concrete rule list
with a malformed middle rule. -/
theorem claim_C7_witness :
    ¬ruleMatches "FOO x" ∧
    parseEntries (["PERMIT_KEY a"] ++ "FOO x" :: ["DENY_KEY b"]) =
      parseEntries (["PERMIT_KEY a"] ++ ["DENY_KEY b"]) ∧
    parseEntries ["PERMIT_KEY a", "FOO x", "DENY_KEY b"] =
      .ok [⟨.PERMIT_KEY, "a"⟩, ⟨.DENY_KEY, "b"⟩] ∧
    ([⟨.PERMIT_KEY, "a"⟩, ⟨.DENY_KEY, "b"⟩] : List PolicyEntry) =
      (["PERMIT_KEY a", "FOO x", "DENY_KEY b"] : List String).filterMap specRuleEntry :=
  ⟨by decide,
   claim_C7_malformed_skip.1 ["PERMIT_KEY a"] ["DENY_KEY b"] "FOO x" (by decide),
   rfl,
   claim_C7_malformed_skip.2 ["PERMIT_KEY a", "FOO x", "DENY_KEY b"] _ rfl⟩

/-- C8: for a role name with at most two dots, appending one trailing dot
does not change the derived address — the hash of the empty final part equals
the padding constant — so these two distinct names collide on one storage
address. -/
theorem claim_C8_trailing_dot (name : String) (h : name.data.count '.' ≤ 2) :
    roleToAddress (name ++ ".") = roleToAddress name ∧ name ++ "." ≠ name := by
  constructor
  · unfold roleToAddress
    rw [show (name ++ ".").data = name.data ++ ['.'] from by
        rw [String.data_append],
      roleAddrParts_append_dot name.data h]
  · intro heq
    have hlen := congrArg String.length heq
    rw [String.length_append, show ("." : String).length = 1 from rfl] at hlen
    omega

/-- C8 witness: `claim_C8_trailing_dot` instantiated at `"a"`. -/
theorem claim_C8_witness :
    ("a" : String).data.count '.' ≤ 2 ∧
    (roleToAddress ("a" ++ ".") = roleToAddress "a" ∧ ("a" : String) ++ "." ≠ "a") :=
  ⟨by decide, claim_C8_trailing_dot "a" (by decide)⟩

/-- C9: a rule that is exactly `PERMIT_KEY` (or `DENY_KEY`) with no second
space-separated token makes entry construction index out of bounds: the
policy build fails with the IndexError-modelled error for every choice of the
signing/serialization externals — i.e. before any signing — rather than
skipping the rule; and when every matching rule has at least two tokens the
error branch is unreachable. -/
theorem claim_C9_missing_key_error :
    parseEntries ["PERMIT_KEY"] = .error "IndexError: list index out of range" ∧
    parseEntries ["DENY_KEY"] = .error "IndexError: list index out of range" ∧
    (∀ (ext : Externals) (pk sk name nonce : String),
      createPolicyTxn ext pk sk name ["PERMIT_KEY"] nonce =
        .error "IndexError: list index out of range") ∧
    (∀ rules : List String,
      (∀ r ∈ rules, ruleMatches r → 2 ≤ (ruleTokens r).length) →
      ∃ l, parseEntries rules = .ok l) := by
  refine ⟨rfl, rfl, ?_, parseEntries_total⟩
  intro ext pk sk name nonce
  exact createPolicyTxn_error rfl

/-- C9 witness: the unreachability conjunct of `claim_C9_missing_key_error`
instantiated at a well-formed rule list. -/
theorem claim_C9_witness :
    (∀ r ∈ (["PERMIT_KEY k"] : List String),
      ruleMatches r → 2 ≤ (ruleTokens r).length) ∧
    (∃ l, parseEntries ["PERMIT_KEY k"] = .ok l) :=
  ⟨by decide, claim_C9_missing_key_error.2.2.2 ["PERMIT_KEY k"] (by decide)⟩

/-- C10: both listing paths concatenate the decoded values in fetch order and
sort them by name ascending before rendering: the displayed sequence is a
name-sorted permutation of the accumulated input; concretely, fetching
`"zeta"` before `"alpha"` still presents `"alpha"` first. -/
theorem claim_C10_listing_sorted :
    (∀ lists : List (List Policy),
      List.Sorted (fun p q : Policy => p.name ≤ q.name) (policyListing lists) ∧
      (policyListing lists).Perm (lists.foldl (fun acc pl => acc ++ pl) [])) ∧
    (∀ lists : List (List Role),
      List.Sorted (fun p q : Role => p.name ≤ q.name) (roleListing lists) ∧
      (roleListing lists).Perm (lists.foldl (fun acc rl => acc ++ rl) [])) ∧
    policyListing [[⟨"zeta", []⟩], [⟨"alpha", []⟩]] =
      [⟨"alpha", []⟩, ⟨"zeta", []⟩] := by
  refine ⟨fun lists => ⟨?_, List.mergeSort_perm _ _⟩,
    fun lists => ⟨?_, List.mergeSort_perm _ _⟩, ?_⟩
  · have h := @List.sorted_mergeSort Policy
      (fun p q : Policy => decide (p.name ≤ q.name))
      (fun a b c hab hbc => by
        simp only [decide_eq_true_eq] at *
        exact le_trans hab hbc)
      (fun a b => by
        simp only [Bool.or_eq_true, decide_eq_true_eq]
        exact le_total a.name b.name)
      (lists.foldl (fun acc pl => acc ++ pl) [])
    exact h.imp (fun hab => by simpa using hab)
  · have h := @List.sorted_mergeSort Role
      (fun p q : Role => decide (p.name ≤ q.name))
      (fun a b c hab hbc => by
        simp only [decide_eq_true_eq] at *
        exact le_trans hab hbc)
      (fun a b => by
        simp only [Bool.or_eq_true, decide_eq_true_eq]
        exact le_total a.name b.name)
      (lists.foldl (fun acc rl => acc ++ rl) [])
    exact h.imp (fun hab => by simpa using hab)
  · simp [policyListing, List.mergeSort, List.merge]
    decide

end SawtoothIdentity
